import Mathlib

/-!
# Theremin control pipeline — verification development

Shallow embedding of the touchless-theremin control pipeline:

* `src/utils.ts` — `lerp`, `getDistance` (Euclidean distance of 2D points);
* `src/hooks/useHandTracking.ts` — constants, `handleGestureDetection`
  (pinch / fist gestures under a shared 1000 ms cooldown) and the
  control-mapping part of `onResults` (pitch from right-hand index x,
  volume from the other hand's index y, auto-mute when no volume hand);
* `src/hooks/useAudioEngine.ts` — the 0.15-coefficient smoothing step
  of `updateAudio`;
* `src/services/audioEngine.ts` (the revision with the analog-mode
  saturation stage, the one the app's controls are wired to) —
  `setVolume` (perceptual `v*v` curve), `setDelayMix` / `updateDelayMix`
  (wet/dry crossfade).

Numbers are embedded as `ℚ` (the source manipulates JS numbers; the
claims under study are about the exact arithmetic the formulas denote).
The source compares `Math.hypot(dx, dy) < d`; the embedding carries the
squared form `dx^2 + dy^2 < d^2`, and `dist_lt_iff_sqrt_lt` proves the
two comparisons equivalent for a positive threshold, so every branch
taken by the embedding is the branch the source takes.
-/

namespace Theremin

/-! ## Geometry utilities (`src/utils.ts`) -/

/-- Linear interpolation, `lerp(start, end, amt) = (1 - amt) * start + amt * end`. -/
def lerp (start «end» amt : ℚ) : ℚ :=
  (1 - amt) * start + amt * «end»

/-- One normalized hand landmark (`HandLandmark`): 3D position, each axis in `[0,1]`. -/
structure Landmark where
  x : ℚ
  y : ℚ
  z : ℚ
deriving DecidableEq, Repr

/-- Square of `getDistance(p1, p2) = Math.hypot(p1.x - p2.x, p1.y - p2.y)`.
The source only ever compares the distance against a threshold; the
embedding compares the square against the squared threshold, which
`dist_lt_iff_sqrt_lt` shows is the same test. -/
def getDistanceSq (p1 p2 : Landmark) : ℚ :=
  (p1.x - p2.x) ^ 2 + (p1.y - p2.y) ^ 2

/-- The test `getDistance p1 p2 < d` as the source runs it, in squared form. -/
def distLt (p1 p2 : Landmark) (d : ℚ) : Bool :=
  getDistanceSq p1 p2 < d ^ 2

/-- Faithfulness of `distLt`: for a positive threshold the squared
comparison agrees with the comparison of the true Euclidean distance
(`Math.hypot`). -/
theorem dist_lt_iff_sqrt_lt (p1 p2 : Landmark) (d : ℚ) (hd : 0 < d) :
    distLt p1 p2 d = true ↔
      Real.sqrt (((p1.x : ℝ) - p2.x) ^ 2 + ((p1.y : ℝ) - p2.y) ^ 2) < (d : ℝ) := by
  rw [distLt, decide_eq_true_eq, Real.sqrt_lt' (by exact_mod_cast hd), getDistanceSq]
  constructor
  · intro h
    exact_mod_cast h
  · intro h
    exact_mod_cast h

/-! ## Constants (`src/hooks/useHandTracking.ts`) -/

def MIN_FREQ : ℚ := 100
def MAX_FREQ : ℚ := 1500
def GESTURE_COOLDOWN : ℤ := 1000

/-! ## Gesture detection (`handleGestureDetection`) -/

/-- The two discrete gesture events the detector can emit. -/
inductive Gesture where
  | cycleWaveform
  | toggleDelay
deriving DecidableEq, Repr

/-- A hand's 21 landmarks, indexed as the vision collaborator delivers
them (0 = wrist, 4 = thumb tip, 8 = index tip, 12/16/20 = middle, ring,
pinky tips). -/
def Landmarks : Type := Fin 21 → Landmark

/-- Fist test of the left-hand branch: how many of the four finger tips
(indices 8, 12, 16, 20) lie within distance 0.15 of the wrist
(landmark 0). -/
def curledCount (lm : Landmarks) : ℕ :=
  List.countP (fun t => distLt (lm t) (lm 0) (15 / 100))
    [(8 : Fin 21), 12, 16, 20]

/-- `handleGestureDetection(landmarks, label)` at instant `now`, with the
ref `lastGestureTime.current = last`: returns the new `lastGestureTime`
and the list of gestures passed to `onGesture` during the call (the source
runs the right-hand block, then the left-hand block; each appends at most
one event). The shared cooldown returns early whenever
`now - last < GESTURE_COOLDOWN`, before any geometry is examined. -/
def handleGestureDetection (last now : ℤ) (lm : Landmarks) (label : String) :
    ℤ × List Gesture :=
  if now - last < GESTURE_COOLDOWN then (last, [])
  else
    -- Right Hand Gesture: PINCH (Index + Thumb) -> Cycle Waveform
    let s1 : ℤ × List Gesture :=
      if label = "Right" ∧ distLt (lm 4) (lm 8) (5 / 100) = true then
        (now, [Gesture.cycleWaveform])
      else (last, [])
    -- Left Hand Gesture: FIST (Closed Hand) -> Toggle Delay
    if label = "Left" ∧ 3 ≤ curledCount lm then
      (now, s1.2 ++ [Gesture.toggleDelay])
    else s1

/-! ## Control mapping (`onResults`) and smoothing state -/

/-- One hand record of a vision tick: 21 landmarks and the handedness
label reported by the tracker. -/
structure HandRecord where
  lm : Landmarks
  label : String

/-- The mutable refs the hand-tracking and audio hooks share:
`targetPitch`, `targetVol` (written by `onResults`), `currentPitch`,
`currentVol` (written by the smoothing loop `updateAudio`), and the
gesture detector's `lastGestureTime`. -/
structure TrackState where
  targetPitch : ℚ
  targetVol : ℚ
  currentPitch : ℚ
  currentVol : ℚ
  lastGestureTime : ℤ
deriving DecidableEq, Repr

/-- Initial ref values: `targetPitch = MIN_FREQ`, `targetVol = 0`,
`lastGestureTime = 0`; `currentPitch` starts at
`targetPitch.current || 440` (so `MIN_FREQ`, which is truthy) and
`currentVol` at `targetVol.current || 0`. -/
def initState : TrackState :=
  { targetPitch := MIN_FREQ
    targetVol := 0
    currentPitch := MIN_FREQ
    currentVol := 0
    lastGestureTime := 0 }

/-- Per-record body of the `onResults` loop: run gesture detection, then
either the `label === 'Right'` branch (set `rHandFound`, write the
clamped pitch target from `indexTip.x`) or the `else` branch, taken by
EVERY other label (set `lHandFound`, write the clamped volume target from
`indexTip.y`). The accumulator carries the state, the events emitted so
far and the `rHandFound` / `lHandFound` flags. -/
def onResultsStep (now : ℤ) (acc : TrackState × List Gesture × Bool × Bool)
    (r : HandRecord) : TrackState × List Gesture × Bool × Bool :=
  let s := acc.1
  let indexTip := r.lm 8
  let g := handleGestureDetection s.lastGestureTime now r.lm r.label
  if r.label = "Right" then
    let pitchVal := MIN_FREQ + (1 - indexTip.x) * (MAX_FREQ - MIN_FREQ)
    ({ s with lastGestureTime := g.1
              targetPitch := max MIN_FREQ (min MAX_FREQ pitchVal) },
     acc.2.1 ++ g.2, true, acc.2.2.2)
  else
    let volVal := 1 - indexTip.y
    ({ s with lastGestureTime := g.1
              targetVol := max 0 (min 1 volVal) },
     acc.2.1 ++ g.2, acc.2.2.1, true)

/-- One invocation of `onResults` at instant `now` on the tick's hand
records: fold the per-record body over the list, then apply the
auto-mute (`if (!lHandFound) targetVol.current = 0`). Returns the updated
refs, the emitted gestures, and the `rHandFound`/`lHandFound` flags. -/
def onResults (s : TrackState) (now : ℤ) (records : List HandRecord) :
    TrackState × List Gesture × Bool × Bool :=
  let acc := records.foldl (onResultsStep now) (s, [], false, false)
  let lHandFound := acc.2.2.2
  (if lHandFound then acc.1 else { acc.1 with targetVol := 0 },
   acc.2.1, acc.2.2.1, lHandFound)

/-- One iteration of the smoothing loop `updateAudio`
(`src/hooks/useAudioEngine.ts`):
`currentPitch := lerp(currentPitch, targetPitch, 0.15)` and likewise for
volume; the targets are untouched. -/
def updateAudio (s : TrackState) : TrackState :=
  { s with currentPitch := lerp s.currentPitch s.targetPitch (15 / 100)
           currentVol := lerp s.currentVol s.targetVol (15 / 100) }

/-- An event of the cooperative scheduler affecting the shared refs:
a vision tick (one `onResults` invocation) or one smoothing iteration. -/
inductive Ev where
  | vision (now : ℤ) (records : List HandRecord)
  | smooth

/-- Run a sequence of scheduler events from a state. -/
def run (s : TrackState) : List Ev → TrackState
  | [] => s
  | Ev.vision now records :: evs => run (onResults s now records).1 evs
  | Ev.smooth :: evs => run (updateAudio s) evs

/-! ## Pure smoothing iteration (for the convergence claim) -/

/-- `n` iterations of the `updateAudio` smoothing step on a single
channel with a constant target `t`:
`current := lerp(current, t, 0.15)` each iteration. -/
def smoothN : ℕ → ℚ → ℚ → ℚ
  | 0, _, c => c
  | n + 1, t, c => smoothN n t (lerp c t (15 / 100))

/-! ## Synthesis engine (`src/services/audioEngine.ts`) -/

/-- The nullable audio nodes and scheduled gain targets of `AudioEngine`
that `setVolume` / `setDelayMix` touch. A `has*` flag models the
corresponding field being non-null (`ctx`, `masterGain`, and the
`delayDryGain` / `delayWetGain` pair, all created together by `init`);
each `*Target` field is the value the latest `setTargetAtTime` call is
ramping that gain toward. -/
structure AudioEngine where
  hasCtx : Bool
  hasMasterGain : Bool
  hasDelayGains : Bool
  masterGainTarget : ℚ
  dryGainTarget : ℚ
  wetGainTarget : ℚ
  currentDelayMix : ℚ
deriving DecidableEq, Repr

/-- `setVolume(volume)`: if `masterGain` and `ctx` are non-null, compute
the perceptual curve `logVol = volume * volume` and schedule the master
gain toward it (ramp constant 0.05 s); otherwise do nothing. -/
def AudioEngine.setVolume (e : AudioEngine) (volume : ℚ) : AudioEngine :=
  if e.hasMasterGain && e.hasCtx then
    let logVol := volume * volume
    { e with masterGainTarget := logVol }
  else e

/-- `updateDelayMix(mix)` (private): if `ctx` and both delay gains are
non-null, schedule the dry gain toward `1 - mix` and the wet gain toward
`mix` (ramp constant 0.1 s each); otherwise do nothing. -/
def AudioEngine.updateDelayMix (e : AudioEngine) (mix : ℚ) : AudioEngine :=
  if e.hasCtx && e.hasDelayGains then
    { e with dryGainTarget := 1 - mix, wetGainTarget := mix }
  else e

/-- `setDelayMix(mix)`: record `currentDelayMix := mix`, then
`updateDelayMix(mix)`. -/
def AudioEngine.setDelayMix (e : AudioEngine) (mix : ℚ) : AudioEngine :=
  AudioEngine.updateDelayMix { e with currentDelayMix := mix } mix

/-! ## Timestamped gesture frames (for the cooldown claims) -/

/-- One gesture-detector invocation's inputs: the instant `Date.now()`
reads, the landmarks and the handedness label. -/
structure GFrame where
  now : ℤ
  lm : Landmarks
  label : String

/-- Feed a sequence of frames through the gesture detector, threading
`lastGestureTime` and collecting each emitted gesture with the timestamp
of the frame that emitted it. -/
def runGestures : ℤ → List GFrame → ℤ × List (ℤ × Gesture)
  | last, [] => (last, [])
  | last, f :: fs =>
    let g := handleGestureDetection last f.now f.lm f.label
    let rest := runGestures g.1 fs
    (rest.1, g.2.map (fun ev => (f.now, ev)) ++ rest.2)

/-! ## Helper lemmas: gesture detector case analysis -/

/-- Inside the cooldown window the detector returns early: state kept,
nothing emitted, whatever the geometry. -/
lemma hg_blocked (last now : ℤ) (lm : Landmarks) (label : String)
    (h : now - last < GESTURE_COOLDOWN) :
    handleGestureDetection last now lm label = (last, []) := by
  simp [handleGestureDetection, if_pos h]

/-- A qualifying right-hand pinch with the cooldown elapsed emits exactly
`cycleWaveform` and stamps `lastGestureTime := now`. -/
lemma hg_fire_right (last now : ℤ) (lm : Landmarks)
    (hcd : GESTURE_COOLDOWN ≤ now - last)
    (hp : distLt (lm 4) (lm 8) (5 / 100) = true) :
    handleGestureDetection last now lm "Right" = (now, [Gesture.cycleWaveform]) := by
  simp [handleGestureDetection, not_lt.mpr hcd, hp]

/-- A qualifying left-hand fist with the cooldown elapsed emits exactly
`toggleDelay` and stamps `lastGestureTime := now`. -/
lemma hg_fire_left (last now : ℤ) (lm : Landmarks)
    (hcd : GESTURE_COOLDOWN ≤ now - last)
    (hf : 3 ≤ curledCount lm) :
    handleGestureDetection last now lm "Left" = (now, [Gesture.toggleDelay]) := by
  simp [handleGestureDetection, not_lt.mpr hcd, hf]

/-- A label that is neither `"Right"` nor `"Left"` matches no gesture
branch: nothing fires, state kept. -/
lemma hg_other (last now : ℤ) (lm : Landmarks) (label : String)
    (h1 : label ≠ "Right") (h2 : label ≠ "Left") :
    handleGestureDetection last now lm label = (last, []) := by
  simp [handleGestureDetection, h1, h2]

/-- Every detector call either keeps the state and emits nothing, or has
the cooldown elapsed, stamps `now`, and emits something. -/
lemma hg_cases (last now : ℤ) (lm : Landmarks) (label : String) :
    handleGestureDetection last now lm label = (last, []) ∨
      (GESTURE_COOLDOWN ≤ now - last ∧
        (handleGestureDetection last now lm label).1 = now ∧
        (handleGestureDetection last now lm label).2 ≠ []) := by
  unfold handleGestureDetection
  split_ifs with h1 h2 h3 <;> simp_all

/-- A detector call that emits nothing keeps `lastGestureTime`. -/
lemma hg_silent_keeps_last (last now : ℤ) (lm : Landmarks) (label : String)
    (h : (handleGestureDetection last now lm label).2 = []) :
    (handleGestureDetection last now lm label).1 = last := by
  rcases hg_cases last now lm label with hc | ⟨-, -, hne⟩
  · rw [hc]
  · exact absurd h hne

/-! ## Concrete qualifying landmarks -/

/-- All 21 landmarks at the origin: thumb tip and index tip coincide
(distance `0 < 0.05`, a qualifying pinch) and all four finger tips lie on
the wrist (distance `0 < 0.15` each, a qualifying fist). -/
def zeroLandmarks : Landmarks := fun _ => Landmark.mk 0 0 0

/-- The zero hand qualifies as a pinch. -/
lemma zero_pinch : distLt (zeroLandmarks 4) (zeroLandmarks 8) (5 / 100) = true := by
  simp [distLt, zeroLandmarks, getDistanceSq]

/-- The zero hand qualifies as a fist (all 4 tips curled). -/
lemma zero_fist : 3 ≤ curledCount zeroLandmarks := by
  simp [curledCount, distLt, zeroLandmarks, getDistanceSq, List.countP]
  decide

/-! ## Helper lemmas: emission separation over a frame sequence -/

/-- One detector call emits at most one gesture: the two branches test
the handedness label against the distinct literals `"Right"` and
`"Left"`, so they cannot both fire. -/
lemma hg_len_le_one (last now : ℤ) (lm : Landmarks) (label : String) :
    (handleGestureDetection last now lm label).2.length ≤ 1 := by
  unfold handleGestureDetection
  split_ifs with h1 h2 h3 <;> simp_all

/-- A detector call that emits anything emits exactly one gesture. -/
lemma hg_singleton (last now : ℤ) (lm : Landmarks) (label : String)
    (h : (handleGestureDetection last now lm label).2 ≠ []) :
    ∃ ev, (handleGestureDetection last now lm label).2 = [ev] := by
  have hlen := hg_len_le_one last now lm label
  match hm : (handleGestureDetection last now lm label).2 with
  | [] => exact absurd hm h
  | [ev] => exact ⟨ev, rfl⟩
  | a :: b :: t => rw [hm] at hlen; simp at hlen

/-- Over any frame sequence (no ordering assumed), every emission is
timestamped at least one cooldown after the initial `lastGestureTime`,
and any two emissions, in emission order, lie at least one cooldown
apart. -/
lemma runGestures_sep (fs : List GFrame) (last : ℤ) :
    (∀ e ∈ (runGestures last fs).2, last + GESTURE_COOLDOWN ≤ e.1) ∧
      (runGestures last fs).2.Pairwise (fun a b => a.1 + GESTURE_COOLDOWN ≤ b.1) := by
  induction fs generalizing last with
  | nil => simp [runGestures]
  | cons f fs ih =>
    rcases hg_cases last f.now f.lm f.label with hc | ⟨hcd, h1, h2⟩
    · simp only [runGestures, hc]
      simpa using ih last
    · obtain ⟨ev, hev⟩ := hg_singleton last f.now f.lm f.label h2
      simp only [runGestures, hev, h1, List.map_cons, List.map_nil,
        List.singleton_append]
      have hCD : GESTURE_COOLDOWN = 1000 := rfl
      constructor
      · intro e he
        rcases List.mem_cons.mp he with rfl | hmem
        · omega
        · have := (ih f.now).1 e hmem
          omega
      · refine List.pairwise_cons.mpr ⟨?_, (ih f.now).2⟩
        intro b hb
        have := (ih f.now).1 b hb
        omega

/-! ## Helper lemmas: the 0.15 smoothing filter -/

/-- One smoothing step shrinks the signed error toward the target by the
exact factor `17/20 = 1 - 0.15`. -/
lemma lerp_error (t c : ℚ) : t - lerp c t (15 / 100) = (17 / 20) * (t - c) := by
  unfold lerp
  ring

/-- Closed form of the iterated filter: after `n` iterations the
remaining signed error is `(17/20)^n` times the initial one. -/
lemma smoothN_error (n : ℕ) (t c : ℚ) :
    t - smoothN n t c = (17 / 20) ^ n * (t - c) := by
  induction n generalizing c with
  | zero => simp [smoothN]
  | succ n ih =>
    calc t - smoothN (n + 1) t c
        = (17 / 20) ^ n * (t - lerp c t (15 / 100)) := ih (lerp c t (15 / 100))
      _ = (17 / 20) ^ n * ((17 / 20) * (t - c)) := by rw [lerp_error]
      _ = (17 / 20) ^ (n + 1) * (t - c) := by ring

/-- The filter value after one more iteration, in terms of `smoothN`. -/
lemma smoothN_succ_eq (n : ℕ) (t c : ℚ) :
    smoothN (n + 1) t c = smoothN n t (lerp c t (15 / 100)) := rfl

/-- One smoothing step lands inside the closed interval spanned by the
current value and the target. -/
lemma lerp_between (c t : ℚ) :
    min c t ≤ lerp c t (15 / 100) ∧ lerp c t (15 / 100) ≤ max c t := by
  unfold lerp
  rcases le_total c t with h | h
  · rw [min_eq_left h, max_eq_right h]
    constructor <;> nlinarith
  · rw [min_eq_right h, max_eq_left h]
    constructor <;> nlinarith

/-- A smoothing step keeps a channel inside `[0, 1]` when the current
value and the target are both inside `[0, 1]`. -/
lemma lerp_mem_unit {c t : ℚ} (hc0 : 0 ≤ c) (hc1 : c ≤ 1) (ht0 : 0 ≤ t)
    (ht1 : t ≤ 1) : 0 ≤ lerp c t (15 / 100) ∧ lerp c t (15 / 100) ≤ 1 := by
  unfold lerp
  constructor <;> nlinarith

/-! ## Helper lemmas: control mapping -/

/-- Singleton tick with a right-hand record: the pitch target is written
from `indexTip.x` (clamped), and the auto-mute zeroes `targetVol` since
no volume hand was found. -/
lemma onResults_singleton_right (s : TrackState) (now : ℤ) (r : HandRecord)
    (h : r.label = "Right") :
    (onResults s now [r]).1.targetPitch
        = max MIN_FREQ (min MAX_FREQ
            (MIN_FREQ + (1 - (r.lm 8).x) * (MAX_FREQ - MIN_FREQ))) ∧
      (onResults s now [r]).1.targetVol = 0 ∧
      (onResults s now [r]).2.2.2 = false := by
  simp [onResults, onResultsStep, h]

/-- Singleton tick with a record whose label is anything but `"Right"`:
the record is handled by the `else` branch, so it sets the left-hand
presence flag and writes the volume target from `indexTip.y` (clamped),
and the auto-mute does not fire. -/
lemma onResults_singleton_nonright (s : TrackState) (now : ℤ) (r : HandRecord)
    (h : r.label ≠ "Right") :
    (onResults s now [r]).1.targetVol = max 0 (min 1 (1 - (r.lm 8).y)) ∧
      (onResults s now [r]).2.2.2 = true := by
  simp [onResults, onResultsStep, h]

/-- The `lHandFound` flag stays `false` over a fold whose records are all
labeled `"Right"`. -/
lemma foldl_lHandFound_false (now : ℤ) (records : List HandRecord)
    (h : ∀ r ∈ records, r.label = "Right") :
    ∀ acc : TrackState × List Gesture × Bool × Bool, acc.2.2.2 = false →
      (records.foldl (onResultsStep now) acc).2.2.2 = false := by
  induction records with
  | nil => simp
  | cons r rs ih =>
    intro acc hacc
    have hr : r.label = "Right" := h r (List.mem_cons_self r rs)
    refine ih (fun x hx => h x (List.mem_cons_of_mem r hx)) _ ?_
    simp [onResultsStep, hr, hacc]

/-! ## Helper lemmas: range invariant of the shared refs -/

/-- The invariant claimed of the shared refs: both volume cells in
`[0, 1]`, the pitch target in `[MIN_FREQ, MAX_FREQ]`. -/
def InvT (s : TrackState) : Prop :=
  0 ≤ s.targetVol ∧ s.targetVol ≤ 1 ∧ 0 ≤ s.currentVol ∧ s.currentVol ≤ 1 ∧
    MIN_FREQ ≤ s.targetPitch ∧ s.targetPitch ≤ MAX_FREQ

/-- Each record write preserves the invariant: both branches write
through an explicit clamp. -/
lemma onResultsStep_inv (now : ℤ) (acc : TrackState × List Gesture × Bool × Bool)
    (r : HandRecord) (h : InvT acc.1) : InvT (onResultsStep now acc r).1 := by
  obtain ⟨h1, h2, h3, h4, h5, h6⟩ := h
  unfold onResultsStep InvT
  split_ifs with hl
  · refine ⟨h1, h2, h3, h4, le_max_left _ _, max_le ?_ (min_le_left _ _)⟩
    norm_num [MIN_FREQ, MAX_FREQ]
  · exact ⟨le_max_left _ _, max_le zero_le_one (min_le_left _ _), h3, h4, h5, h6⟩

/-- The whole `onResults` invocation preserves the invariant (the
auto-mute writes the in-range value `0`). -/
lemma onResults_inv (s : TrackState) (now : ℤ) (records : List HandRecord)
    (h : InvT s) : InvT (onResults s now records).1 := by
  have hfold : ∀ acc : TrackState × List Gesture × Bool × Bool, InvT acc.1 →
      InvT (records.foldl (onResultsStep now) acc).1 := by
    induction records with
    | nil => intro acc hacc; simpa using hacc
    | cons r rs ih =>
      intro acc hacc
      exact ih _ (onResultsStep_inv now acc r hacc)
  have hI := hfold (s, [], false, false) h
  simp only [onResults]
  split
  · exact hI
  · obtain ⟨-, -, h3, h4, h5, h6⟩ := hI
    exact ⟨le_refl 0, zero_le_one, h3, h4, h5, h6⟩

/-- The smoothing iteration preserves the invariant: the targets are
untouched and `currentVol` moves between two values of `[0, 1]`. -/
lemma updateAudio_inv (s : TrackState) (h : InvT s) : InvT (updateAudio s) := by
  obtain ⟨h1, h2, h3, h4, h5, h6⟩ := h
  obtain ⟨hv0, hv1⟩ := lerp_mem_unit h3 h4 h1 h2
  exact ⟨h1, h2, hv0, hv1, h5, h6⟩

/-- The invariant holds along every run of scheduler events. -/
lemma run_inv (s : TrackState) (evs : List Ev) (h : InvT s) : InvT (run s evs) := by
  induction evs generalizing s with
  | nil => simpa [run] using h
  | cons e evs ih =>
    cases e with
    | vision now records => exact ih _ (onResults_inv s now records h)
    | smooth => exact ih _ (updateAudio_inv s h)

/-- The initial ref values satisfy the invariant. -/
lemma initState_inv : InvT initState := by
  unfold InvT initState MIN_FREQ MAX_FREQ
  norm_num

/-! ## Helper lemmas: two qualifying hands in one tick -/

/-- Right-hand record listed first: its pinch fires `cycleWaveform` and
stamps the cooldown, so the left fist that follows in the same tick is
blocked. -/
lemma onResults_pair_right_first (s : TrackState) (now : ℤ) (rR rL : HandRecord)
    (hR : rR.label = "Right") (hL : rL.label = "Left")
    (hp : distLt (rR.lm 4) (rR.lm 8) (5 / 100) = true)
    (hcd : GESTURE_COOLDOWN ≤ now - s.lastGestureTime) :
    (onResults s now [rR, rL]).2.1 = [Gesture.cycleWaveform] := by
  have h1 := hg_fire_right s.lastGestureTime now rR.lm hcd hp
  have h2 := hg_blocked now now rL.lm rL.label (by norm_num [GESTURE_COOLDOWN])
  rw [hL] at h2
  simp [onResults, onResultsStep, hR, hL, h1, h2]

/-- Left-hand record listed first: its fist fires `toggleDelay` and
stamps the cooldown, so the right pinch that follows in the same tick is
blocked — the emission depends on the order of the records. -/
lemma onResults_pair_left_first (s : TrackState) (now : ℤ) (rR rL : HandRecord)
    (hR : rR.label = "Right") (hL : rL.label = "Left")
    (hf : 3 ≤ curledCount rL.lm)
    (hcd : GESTURE_COOLDOWN ≤ now - s.lastGestureTime) :
    (onResults s now [rL, rR]).2.1 = [Gesture.toggleDelay] := by
  have h1 := hg_fire_left s.lastGestureTime now rL.lm hcd hf
  have h2 := hg_blocked now now rR.lm rR.label (by norm_num [GESTURE_COOLDOWN])
  rw [hR] at h2
  simp [onResults, onResultsStep, hR, hL, h1, h2]

/-! ## Helper lemmas: silent frames never move the cooldown -/

/-- A frame sequence along which nothing is emitted leaves
`lastGestureTime` exactly where it started. -/
lemma runGestures_silent (fs : List GFrame) (last : ℤ)
    (h : (runGestures last fs).2 = []) : (runGestures last fs).1 = last := by
  induction fs generalizing last with
  | nil => simp [runGestures]
  | cons f fs ih =>
    simp only [runGestures, List.append_eq_nil] at h
    obtain ⟨h1, h2⟩ := h
    have hg2 : (handleGestureDetection last f.now f.lm f.label).2 = [] := by
      simpa using h1
    have hkeep := hg_silent_keeps_last last f.now f.lm f.label hg2
    simp only [runGestures]
    rw [hkeep] at h2 ⊢
    exact ih last h2

/-! ## Concrete records for the scenario claims -/

/-- Right-hand record with `indexTip.x = 0.25` (every landmark at
`(0.25, 0.5)`). -/
def rightQuarter : HandRecord := ⟨fun _ => Landmark.mk (1 / 4) (1 / 2) 0, "Right"⟩

/-- Left-hand record with `indexTip.y = 0.9` (every landmark at
`(0.5, 0.9)`). -/
def leftNinety : HandRecord := ⟨fun _ => Landmark.mk (1 / 2) (9 / 10) 0, "Left"⟩

/-- An engine as `init()` leaves it: every node present, master gain
silent, crossfade at the default mix `0.3`. -/
def readyEngine : AudioEngine :=
  { hasCtx := true
    hasMasterGain := true
    hasDelayGains := true
    masterGainTarget := 0
    dryGainTarget := 7 / 10
    wetGainTarget := 3 / 10
    currentDelayMix := 3 / 10 }

/-- A record whose label is neither `"Right"` nor `"Left"` (as a
malformed or future tracker might report). -/
def oddRecord : HandRecord := ⟨fun _ => Landmark.mk 0 (3 / 10) 0, "Mystery"⟩

/-! ## Helper lemmas: the volume hand over a whole tick -/

/-- The last record of a tick that the `else` branch of `onResults`
handles, i.e. the last record whose label is not `"Right"`: each such
record overwrites `targetVol`, so this one decides the tick's final
volume target. -/
def lastNonRight : List HandRecord → Option HandRecord
  | [] => none
  | r :: rs =>
    match lastNonRight rs with
    | some r0 => some r0
    | none => if r.label = "Right" then none else some r

/-- A record in the `label === 'Right'` branch touches neither
`targetVol` nor the `lHandFound` flag. -/
lemma step_right_preserves (now : ℤ) (acc : TrackState × List Gesture × Bool × Bool)
    (r : HandRecord) (h : r.label = "Right") :
    (onResultsStep now acc r).1.targetVol = acc.1.targetVol ∧
      (onResultsStep now acc r).2.2.2 = acc.2.2.2 := by
  simp [onResultsStep, h]

/-- A record in the `else` branch writes `targetVol` from its
`indexTip.y` (clamped) and sets the `lHandFound` flag. -/
lemma step_nonright_writes (now : ℤ) (acc : TrackState × List Gesture × Bool × Bool)
    (r : HandRecord) (h : r.label ≠ "Right") :
    (onResultsStep now acc r).1.targetVol = max 0 (min 1 (1 - (r.lm 8).y)) ∧
      (onResultsStep now acc r).2.2.2 = true := by
  simp [onResultsStep, h]

/-- A run of all-`"Right"` records leaves `targetVol` and the
`lHandFound` flag of the accumulator untouched. -/
lemma foldl_allRight_preserves (now : ℤ) (records : List HandRecord)
    (h : ∀ r ∈ records, r.label = "Right") :
    ∀ acc : TrackState × List Gesture × Bool × Bool,
      (records.foldl (onResultsStep now) acc).1.targetVol = acc.1.targetVol ∧
        (records.foldl (onResultsStep now) acc).2.2.2 = acc.2.2.2 := by
  induction records with
  | nil => simp
  | cons r rs ih =>
    intro acc
    have hr := step_right_preserves now acc r (h r (List.mem_cons_self r rs))
    have := ih (fun x hx => h x (List.mem_cons_of_mem r hx)) (onResultsStep now acc r)
    exact ⟨this.1.trans hr.1, this.2.trans hr.2⟩

/-- A tick with no non-`"Right"` record consists of `"Right"` records
only. -/
lemma lastNonRight_none (records : List HandRecord)
    (h : lastNonRight records = none) : ∀ r ∈ records, r.label = "Right" := by
  induction records with
  | nil => simp
  | cons r rs ih =>
    unfold lastNonRight at h
    cases hl : lastNonRight rs with
    | some r0 => rw [hl] at h; simp at h
    | none =>
      rw [hl] at h
      by_cases hr : r.label = "Right"
      · intro x hx
        rcases List.mem_cons.mp hx with rfl | hxs
        · exact hr
        · exact ih hl x hxs
      · simp [hr] at h

/-- A tick containing some non-`"Right"` record has a last one. -/
lemma lastNonRight_isSome (records : List HandRecord)
    (h : ∃ r ∈ records, r.label ≠ "Right") :
    ∃ r0, lastNonRight records = some r0 := by
  obtain ⟨r, hmem, hne⟩ := h
  induction records with
  | nil => simp at hmem
  | cons x rs ih =>
    unfold lastNonRight
    cases hl : lastNonRight rs with
    | some r0 => exact ⟨r0, rfl⟩
    | none =>
      rcases List.mem_cons.mp hmem with rfl | hrs
      · simp [hne]
      · exact absurd (lastNonRight_none rs hl r hrs) hne

/-- Folding the tick body over records whose last non-`"Right"` record is
`r0` ends with `targetVol` equal to the clamped volume of `r0` and the
`lHandFound` flag set. -/
lemma foldl_lastNonRight (now : ℤ) (records : List HandRecord) :
    ∀ (acc : TrackState × List Gesture × Bool × Bool) (r0 : HandRecord),
      lastNonRight records = some r0 →
        (records.foldl (onResultsStep now) acc).1.targetVol
            = max 0 (min 1 (1 - (r0.lm 8).y)) ∧
          (records.foldl (onResultsStep now) acc).2.2.2 = true := by
  induction records with
  | nil => intro acc r0 h; simp [lastNonRight] at h
  | cons r rs ih =>
    intro acc r0 h
    unfold lastNonRight at h
    rw [List.foldl_cons]
    cases hl : lastNonRight rs with
    | some r1 =>
      rw [hl] at h
      obtain rfl : r1 = r0 := by simpa using h
      exact ih (onResultsStep now acc r) r1 hl
    | none =>
      rw [hl] at h
      have hall := lastNonRight_none rs hl
      by_cases hr : r.label = "Right"
      · simp [hr] at h
      · obtain rfl : r = r0 := by simpa [hr] using h
        have hstep := step_nonright_writes now acc r hr
        have hfold := foldl_allRight_preserves now rs hall (onResultsStep now acc r)
        exact ⟨hfold.1.trans hstep.1, hfold.2.trans hstep.2⟩

/-- Tick-level consequence: when the tick holds a last non-`"Right"`
record `r0`, the invocation reports `lHandFound = true` (so the auto-mute
is suppressed) and leaves `targetVol` at the clamped volume of `r0`. -/
lemma onResults_lastNonRight (s : TrackState) (now : ℤ)
    (records : List HandRecord) (r0 : HandRecord)
    (h : lastNonRight records = some r0) :
    (onResults s now records).2.2.2 = true ∧
      (onResults s now records).1.targetVol = max 0 (min 1 (1 - (r0.lm 8).y)) := by
  have hf := foldl_lastNonRight now records (s, [], false, false) r0 h
  constructor
  · simp [onResults, hf.2]
  · simp [onResults, hf.2, hf.1]

/-! ## Claims -/

/-- C1: for every volume input `v ∈ [0,1]`, `setVolume(v)` on an
initialized engine (`masterGain` and `ctx` non-null) schedules the master
gain toward exactly `v * v`, the square of the requested volume. -/
theorem setVolume_squares (e : AudioEngine) (v : ℚ) (h0 : 0 ≤ v) (h1 : v ≤ 1)
    (hm : e.hasMasterGain = true) (hc : e.hasCtx = true) :
    (e.setVolume v).masterGainTarget = v * v := by
  simp [AudioEngine.setVolume, hm, hc]

/-- Witness for C1: `setVolume(1/2)` on the freshly initialized engine
schedules the master gain toward `1/4`. -/
theorem setVolume_squares_witness :
    (0 ≤ (1 / 2 : ℚ) ∧ (1 / 2 : ℚ) ≤ 1 ∧ readyEngine.hasMasterGain = true ∧
        readyEngine.hasCtx = true) ∧
      (readyEngine.setVolume (1 / 2)).masterGainTarget = 1 / 2 * (1 / 2) :=
  ⟨⟨by norm_num, by norm_num, rfl, rfl⟩,
    setVolume_squares readyEngine (1 / 2) (by norm_num) (by norm_num) rfl rfl⟩

/-- C2 is false as stated: with the constant target 1500 Hz and initial
current pitch 100 Hz (both inside `[100, 1500]`), after 30 iterations of
the 0.15-coefficient filter the current pitch is still more than 1 Hz
away from the target (the remaining error is `1400 * (17/20)^30`, about
10.7 Hz). -/
theorem smooth30_misses_by_over_one_hz :
    MIN_FREQ ≤ (1500 : ℚ) ∧ (1500 : ℚ) ≤ MAX_FREQ ∧
      MIN_FREQ ≤ (100 : ℚ) ∧ (100 : ℚ) ≤ MAX_FREQ ∧
      1 < |smoothN 30 1500 100 - 1500| := by
  refine ⟨by norm_num [MIN_FREQ], by norm_num [MAX_FREQ],
    by norm_num [MIN_FREQ], by norm_num [MAX_FREQ], ?_⟩
  have h := smoothN_error 30 1500 100
  have hpos : (0 : ℚ) < (17 / 20) ^ 30 * (1500 - 100) := by positivity
  have hrw : smoothN 30 1500 100 - 1500 = -((17 / 20) ^ 30 * (1500 - 100)) := by
    linarith
  rw [hrw, abs_neg, abs_of_pos hpos]
  norm_num

/-- C2 (amended): for every constant target pitch and initial current
pitch in `[100, 1500]`, the iteration
`current := current + (target - current) * 0.15` converges monotonically
toward the target without ever overshooting, and after at most 45
iterations (not 30 as claimed) the current pitch is within 1 Hz of the
target. -/
theorem smoothing_converges (t c : ℚ) (ht0 : MIN_FREQ ≤ t) (ht1 : t ≤ MAX_FREQ)
    (hc0 : MIN_FREQ ≤ c) (hc1 : c ≤ MAX_FREQ) :
    (c ≤ t → ∀ n, smoothN n t c ≤ smoothN (n + 1) t c ∧ smoothN n t c ≤ t) ∧
      (t ≤ c → ∀ n, smoothN (n + 1) t c ≤ smoothN n t c ∧ t ≤ smoothN n t c) ∧
      |smoothN 45 t c - t| ≤ 1 := by
  refine ⟨?_, ?_, ?_⟩
  · intro hct n
    have h1 := smoothN_error n t c
    have h2 := smoothN_error (n + 1) t c
    rw [pow_succ] at h2
    have hq : (0 : ℚ) < (17 / 20) ^ n := by positivity
    constructor
    · nlinarith
    · nlinarith
  · intro htc n
    have h1 := smoothN_error n t c
    have h2 := smoothN_error (n + 1) t c
    rw [pow_succ] at h2
    have hq : (0 : ℚ) < (17 / 20) ^ n := by positivity
    constructor
    · nlinarith
    · nlinarith
  · have h := smoothN_error 45 t c
    have habs : |smoothN 45 t c - t| = (17 / 20) ^ 45 * |t - c| := by
      rw [abs_sub_comm, h, abs_mul,
        abs_of_pos (by positivity : (0 : ℚ) < (17 / 20) ^ 45)]
    rw [habs]
    have hd : |t - c| ≤ 1400 := by
      rw [abs_le]
      norm_num [MIN_FREQ, MAX_FREQ] at ht0 ht1 hc0 hc1
      constructor <;> linarith
    calc (17 / 20 : ℚ) ^ 45 * |t - c| ≤ (17 / 20) ^ 45 * 1400 :=
          mul_le_mul_of_nonneg_left hd (by positivity)
      _ ≤ 1 := by norm_num

/-- Witness for the amended C2 at target 1500 Hz from 100 Hz. -/
theorem smoothing_converges_witness :
    (MIN_FREQ ≤ (1500 : ℚ) ∧ (1500 : ℚ) ≤ MAX_FREQ ∧
        MIN_FREQ ≤ (100 : ℚ) ∧ (100 : ℚ) ≤ MAX_FREQ) ∧
      |smoothN 45 1500 100 - 1500| ≤ 1 :=
  ⟨⟨by norm_num [MIN_FREQ], by norm_num [MAX_FREQ],
      by norm_num [MIN_FREQ], by norm_num [MAX_FREQ]⟩,
    (smoothing_converges 1500 100 (by norm_num [MIN_FREQ])
      (by norm_num [MAX_FREQ]) (by norm_num [MIN_FREQ])
      (by norm_num [MAX_FREQ])).2.2⟩

/-- C3: at most one gesture event is emitted per 1000 ms cooldown window:
a call inside the window emits nothing regardless of geometry; over any
frame sequence consecutive emissions are at least `GESTURE_COOLDOWN`
apart; two qualifying pinch frames 200 ms apart yield exactly one
`cycleWaveform` event, while 1100 ms apart they yield two. -/
theorem gesture_cooldown :
    (∀ (last now : ℤ) (lm : Landmarks) (label : String),
        now - last < GESTURE_COOLDOWN →
          handleGestureDetection last now lm label = (last, [])) ∧
      (∀ (last : ℤ) (fs : List GFrame),
        (runGestures last fs).2.Pairwise
          (fun a b => a.1 + GESTURE_COOLDOWN ≤ b.1)) ∧
      (runGestures 0 [⟨2000, zeroLandmarks, "Right"⟩,
          ⟨2200, zeroLandmarks, "Right"⟩]).2
        = [(2000, Gesture.cycleWaveform)] ∧
      (runGestures 0 [⟨2000, zeroLandmarks, "Right"⟩,
          ⟨3100, zeroLandmarks, "Right"⟩]).2
        = [(2000, Gesture.cycleWaveform), (3100, Gesture.cycleWaveform)] := by
  refine ⟨hg_blocked, fun last fs => (runGestures_sep fs last).2, ?_, ?_⟩
  · simp [runGestures,
      hg_fire_right 0 2000 zeroLandmarks (by norm_num [GESTURE_COOLDOWN]) zero_pinch,
      hg_blocked 2000 2200 zeroLandmarks "Right" (by norm_num [GESTURE_COOLDOWN])]
  · simp [runGestures,
      hg_fire_right 0 2000 zeroLandmarks (by norm_num [GESTURE_COOLDOWN]) zero_pinch,
      hg_fire_right 2000 3100 zeroLandmarks (by norm_num [GESTURE_COOLDOWN]) zero_pinch]

/-- Witness for C3: a qualifying pinch 200 ms after an emission at
`lastGestureTime = 2000` emits nothing. -/
theorem gesture_cooldown_witness :
    (2200 : ℤ) - 2000 < GESTURE_COOLDOWN ∧
      handleGestureDetection 2000 2200 zeroLandmarks "Right" = (2000, []) :=
  ⟨by norm_num [GESTURE_COOLDOWN],
    gesture_cooldown.1 2000 2200 zeroLandmarks "Right"
      (by norm_num [GESTURE_COOLDOWN])⟩

/-- C4 is false as stated: with the cooldown elapsed and a tick holding a
qualifying left-hand fist record before a qualifying right-hand pinch
record, the emitted gesture is `toggleDelay`, not `cycleWaveform` — the
hands are evaluated in the order the records appear in the tick's list,
not right hand first. -/
theorem tick_order_decides_gesture_cex :
    GESTURE_COOLDOWN ≤ (2000 : ℤ) - initState.lastGestureTime ∧
      distLt (zeroLandmarks 4) (zeroLandmarks 8) (5 / 100) = true ∧
      3 ≤ curledCount zeroLandmarks ∧
      (onResults initState 2000
          [⟨zeroLandmarks, "Left"⟩, ⟨zeroLandmarks, "Right"⟩]).2.1
        = [Gesture.toggleDelay] := by
  refine ⟨by norm_num [GESTURE_COOLDOWN, initState], zero_pinch, zero_fist, ?_⟩
  exact onResults_pair_left_first initState 2000 ⟨zeroLandmarks, "Right"⟩
    ⟨zeroLandmarks, "Left"⟩ rfl rfl zero_fist
    (by norm_num [GESTURE_COOLDOWN, initState])

/-- C4 (amended): when a tick contains both a qualifying right-hand pinch
record and a qualifying left-hand fist record with the cooldown elapsed,
the gesture of the record listed FIRST fires and, through the shared
cooldown timestamp, blocks the other: right-hand record first emits
`cycleWaveform`, left-hand record first emits `toggleDelay`. -/
theorem first_qualifying_record_fires (s : TrackState) (now : ℤ)
    (rR rL : HandRecord) (hR : rR.label = "Right") (hL : rL.label = "Left")
    (hp : distLt (rR.lm 4) (rR.lm 8) (5 / 100) = true)
    (hf : 3 ≤ curledCount rL.lm)
    (hcd : GESTURE_COOLDOWN ≤ now - s.lastGestureTime) :
    (onResults s now [rR, rL]).2.1 = [Gesture.cycleWaveform] ∧
      (onResults s now [rL, rR]).2.1 = [Gesture.toggleDelay] :=
  ⟨onResults_pair_right_first s now rR rL hR hL hp hcd,
    onResults_pair_left_first s now rR rL hR hL hf hcd⟩

/-- Witness for the amended C4 on the all-zero hands at `now = 2000`. -/
theorem first_qualifying_record_fires_witness :
    (distLt (zeroLandmarks 4) (zeroLandmarks 8) (5 / 100) = true ∧
        3 ≤ curledCount zeroLandmarks ∧
        GESTURE_COOLDOWN ≤ (2000 : ℤ) - initState.lastGestureTime) ∧
      ((onResults initState 2000
            [⟨zeroLandmarks, "Right"⟩, ⟨zeroLandmarks, "Left"⟩]).2.1
          = [Gesture.cycleWaveform] ∧
        (onResults initState 2000
            [⟨zeroLandmarks, "Left"⟩, ⟨zeroLandmarks, "Right"⟩]).2.1
          = [Gesture.toggleDelay]) :=
  ⟨⟨by simp [distLt, zeroLandmarks, getDistanceSq],
      by simp [curledCount, distLt, zeroLandmarks, getDistanceSq, List.countP]; decide,
      by norm_num [GESTURE_COOLDOWN, initState]⟩,
    first_qualifying_record_fires initState 2000 ⟨zeroLandmarks, "Right"⟩
      ⟨zeroLandmarks, "Left"⟩ rfl rfl
      (by simp [distLt, zeroLandmarks, getDistanceSq])
      (by simp [curledCount, distLt, zeroLandmarks, getDistanceSq, List.countP]; decide)
      (by norm_num [GESTURE_COOLDOWN, initState])⟩

/-- C5: after any sequence of vision ticks and smoothing iterations from
the initial state, `targetVol` and `currentVol` stay in `[0, 1]` and
`targetPitch` stays in `[MIN_FREQ, MAX_FREQ]`; moreover every smoothing
step lands inside the interval spanned by the current and target
values. -/
theorem control_targets_bounded :
    (∀ evs : List Ev,
        0 ≤ (run initState evs).targetVol ∧ (run initState evs).targetVol ≤ 1 ∧
          0 ≤ (run initState evs).currentVol ∧
          (run initState evs).currentVol ≤ 1 ∧
          MIN_FREQ ≤ (run initState evs).targetPitch ∧
          (run initState evs).targetPitch ≤ MAX_FREQ) ∧
      (∀ c t : ℚ, min c t ≤ lerp c t (15 / 100) ∧ lerp c t (15 / 100) ≤ max c t) :=
  ⟨fun evs => run_inv initState evs initState_inv, lerp_between⟩

/-- Witness for C5 after one vision tick and one smoothing iteration. -/
theorem control_targets_bounded_witness :
    0 ≤ (run initState [Ev.vision 0 [leftNinety], Ev.smooth]).targetVol ∧
      (run initState [Ev.vision 0 [leftNinety], Ev.smooth]).targetVol ≤ 1 ∧
      0 ≤ (run initState [Ev.vision 0 [leftNinety], Ev.smooth]).currentVol ∧
      (run initState [Ev.vision 0 [leftNinety], Ev.smooth]).currentVol ≤ 1 ∧
      MIN_FREQ ≤ (run initState [Ev.vision 0 [leftNinety], Ev.smooth]).targetPitch ∧
      (run initState [Ev.vision 0 [leftNinety], Ev.smooth]).targetPitch ≤ MAX_FREQ :=
  control_targets_bounded.1 [Ev.vision 0 [leftNinety], Ev.smooth]

/-- C6: every right-hand record sets the pitch target to
`MIN_FREQ + (1 - indexTip.x) * (MAX_FREQ - MIN_FREQ)` clamped to
`[MIN_FREQ, MAX_FREQ]`; in particular `indexTip.x = 0.25` yields exactly
1150 Hz, and a left-hand record with `indexTip.y = 0.9` yields a volume
target of exactly `0.1`. -/
theorem pitch_volume_mapping :
    (∀ (s : TrackState) (now : ℤ) (r : HandRecord), r.label = "Right" →
        (onResults s now [r]).1.targetPitch
          = max MIN_FREQ (min MAX_FREQ
              (MIN_FREQ + (1 - (r.lm 8).x) * (MAX_FREQ - MIN_FREQ)))) ∧
      (onResults initState 0 [rightQuarter]).1.targetPitch = 1150 ∧
      (onResults initState 0 [leftNinety]).1.targetVol = 1 / 10 := by
  refine ⟨fun s now r h => (onResults_singleton_right s now r h).1, ?_, ?_⟩
  · have h := (onResults_singleton_right initState 0 rightQuarter rfl).1
    rw [h]
    norm_num [rightQuarter, MIN_FREQ, MAX_FREQ]
  · have h := (onResults_singleton_nonright initState 0 leftNinety
      (by simp [leftNinety])).1
    rw [h]
    norm_num [leftNinety]

/-- Witness for C6: the right-hand mapping formula at the
`indexTip.x = 0.25` record. -/
theorem pitch_volume_mapping_witness :
    rightQuarter.label = "Right" ∧
      (onResults initState 5 [rightQuarter]).1.targetPitch
        = max MIN_FREQ (min MAX_FREQ
            (MIN_FREQ + (1 - (rightQuarter.lm 8).x) * (MAX_FREQ - MIN_FREQ))) :=
  ⟨rfl, pitch_volume_mapping.1 initState 5 rightQuarter rfl⟩

/-- C7: a vision tick containing no left-hand record (all records labeled
`"Right"`, or none at all) sets `targetVol` to exactly 0 in that same
invocation, whatever the previous state held. -/
theorem auto_mute_no_left_hand (s : TrackState) (now : ℤ)
    (records : List HandRecord) (h : ∀ r ∈ records, r.label = "Right") :
    (onResults s now records).1.targetVol = 0 := by
  have hlf := foldl_lHandFound_false now records h (s, [], false, false) rfl
  simp [onResults, hlf]

/-- Witness for C7: a left-hand tick followed by a right-hand-only tick
mutes the volume target. -/
theorem auto_mute_no_left_hand_witness :
    (∀ r ∈ [rightQuarter], r.label = "Right") ∧
      (onResults (onResults initState 0 [leftNinety]).1 40 [rightQuarter]).1.targetVol
        = 0 :=
  ⟨by simp [rightQuarter],
    auto_mute_no_left_hand (onResults initState 0 [leftNinety]).1 40
      [rightQuarter] (by simp [rightQuarter])⟩

/-- C8: `setDelayMix(m)` on an initialized engine schedules the dry gain
toward `1 - m` and the wet gain toward `m`, so the two settled gains sum
to exactly 1. -/
theorem delay_crossfade_sums_to_one (e : AudioEngine) (m : ℚ)
    (hc : e.hasCtx = true) (hg : e.hasDelayGains = true) :
    (e.setDelayMix m).dryGainTarget = 1 - m ∧
      (e.setDelayMix m).wetGainTarget = m ∧
      (e.setDelayMix m).dryGainTarget + (e.setDelayMix m).wetGainTarget = 1 := by
  refine ⟨?_, ?_, ?_⟩ <;>
    simp [AudioEngine.setDelayMix, AudioEngine.updateDelayMix, hc, hg]

/-- Witness for C8 at mix `0.3` on the freshly initialized engine. -/
theorem delay_crossfade_sums_to_one_witness :
    (readyEngine.hasCtx = true ∧ readyEngine.hasDelayGains = true) ∧
      (readyEngine.setDelayMix (3 / 10)).dryGainTarget = 1 - 3 / 10 ∧
      (readyEngine.setDelayMix (3 / 10)).wetGainTarget = 3 / 10 ∧
      (readyEngine.setDelayMix (3 / 10)).dryGainTarget
          + (readyEngine.setDelayMix (3 / 10)).wetGainTarget = 1 :=
  ⟨⟨rfl, rfl⟩, delay_crossfade_sums_to_one readyEngine (3 / 10) rfl rfl⟩

/-- C9: every record whose label is anything other than `"Right"` — not
only `"Left"` — is treated as the volume hand: its step sets the
left-hand presence flag and writes `targetVol` from its `indexTip.y`;
over any tick (any record list) containing such a record the auto-mute is
suppressed (`lHandFound = true`) and the tick ends with `targetVol` equal
to the clamped volume of the last non-`"Right"` record; only the fist
branch of the gesture detector tests for the exact label `"Left"`, so a
label that is neither `"Right"` nor `"Left"` never emits a gesture. -/
theorem nonright_label_is_volume_hand :
    (∀ (now : ℤ) (acc : TrackState × List Gesture × Bool × Bool)
        (r : HandRecord), r.label ≠ "Right" →
          (onResultsStep now acc r).1.targetVol
              = max 0 (min 1 (1 - (r.lm 8).y)) ∧
            (onResultsStep now acc r).2.2.2 = true) ∧
      (∀ (s : TrackState) (now : ℤ) (records : List HandRecord),
        (∃ r ∈ records, r.label ≠ "Right") →
          (onResults s now records).2.2.2 = true) ∧
      (∀ (s : TrackState) (now : ℤ) (records : List HandRecord)
        (r0 : HandRecord), lastNonRight records = some r0 →
          (onResults s now records).1.targetVol
            = max 0 (min 1 (1 - (r0.lm 8).y))) ∧
      (∀ (last now : ℤ) (lm : Landmarks) (label : String),
        label ≠ "Right" → label ≠ "Left" →
          handleGestureDetection last now lm label = (last, [])) := by
  refine ⟨step_nonright_writes, ?_, ?_, hg_other⟩
  · intro s now records h
    obtain ⟨r0, hr0⟩ := lastNonRight_isSome records h
    exact (onResults_lastNonRight s now records r0 hr0).1
  · intro s now records r0 hr0
    exact (onResults_lastNonRight s now records r0 hr0).2

/-- Witness for C9 on a two-record tick: a record labeled `"Mystery"`
alongside a right-hand record still suppresses the auto-mute and decides
the volume target. -/
theorem nonright_label_is_volume_hand_witness :
    (oddRecord.label ≠ "Right" ∧ oddRecord.label ≠ "Left" ∧
        (∃ r ∈ [oddRecord, rightQuarter], r.label ≠ "Right") ∧
        lastNonRight [oddRecord, rightQuarter] = some oddRecord) ∧
      ((onResultsStep 0 (initState, [], false, false) oddRecord).1.targetVol
          = max 0 (min 1 (1 - (oddRecord.lm 8).y)) ∧
        (onResultsStep 0 (initState, [], false, false) oddRecord).2.2.2 = true) ∧
      (onResults initState 0 [oddRecord, rightQuarter]).2.2.2 = true ∧
      (onResults initState 0 [oddRecord, rightQuarter]).1.targetVol
          = max 0 (min 1 (1 - (oddRecord.lm 8).y)) ∧
      handleGestureDetection 0 5000 oddRecord.lm "Mystery" = (0, []) :=
  ⟨⟨by simp [oddRecord], by simp [oddRecord],
      ⟨oddRecord, by simp, by simp [oddRecord]⟩,
      by simp [lastNonRight, oddRecord, rightQuarter]⟩,
    nonright_label_is_volume_hand.1 0 (initState, [], false, false) oddRecord
      (by simp [oddRecord]),
    nonright_label_is_volume_hand.2.1 initState 0 [oddRecord, rightQuarter]
      ⟨oddRecord, by simp, by simp [oddRecord]⟩,
    nonright_label_is_volume_hand.2.2.1 initState 0 [oddRecord, rightQuarter]
      oddRecord (by simp [lastNonRight, oddRecord, rightQuarter]),
    nonright_label_is_volume_hand.2.2.2 0 5000 oddRecord.lm "Mystery"
      (by decide) (by decide)⟩

/-- C10: a gesture-detector call that emits no event leaves
`lastGestureTime` unchanged — qualifying frames inside the cooldown
window neither fire nor extend the window — and a whole frame sequence
emitting nothing leaves it unchanged too. -/
theorem silent_call_keeps_cooldown :
    (∀ (last now : ℤ) (lm : Landmarks) (label : String),
        (handleGestureDetection last now lm label).2 = [] →
          (handleGestureDetection last now lm label).1 = last) ∧
      (∀ (last : ℤ) (fs : List GFrame), (runGestures last fs).2 = [] →
          (runGestures last fs).1 = last) :=
  ⟨hg_silent_keeps_last, fun last fs => runGestures_silent fs last⟩

/-- Witness for C10: a qualifying pinch 200 ms after an emission keeps
`lastGestureTime = 500`. -/
theorem silent_call_keeps_cooldown_witness :
    (handleGestureDetection 500 700 zeroLandmarks "Right").2 = [] ∧
      (handleGestureDetection 500 700 zeroLandmarks "Right").1 = 500 :=
  ⟨by simp [handleGestureDetection, GESTURE_COOLDOWN],
    silent_call_keeps_cooldown.1 500 700 zeroLandmarks "Right"
      (by simp [handleGestureDetection, GESTURE_COOLDOWN])⟩

end Theremin
